import Mathlib

/-!
Verification of the natural-language tool dispatcher of this repository.

The development shallowly embeds the dispatch pipeline that recurs across the
repository scripts:

* `parseJson` models Python `json.loads` (RFC 8259 JSON: objects, arrays,
  strings with escapes, numbers with optional fraction and exponent, booleans,
  null; the non-standard `NaN` and `Infinity` extensions are not modelled, and
  a number is kept as an exact decimal `mantissa * 10 ^ exponent` rather than
  an IEEE double).
* `braceMatch` models the recovery regex of `test3/mcp_ollama_client.py`
  (`re.search` of an open brace, any characters, a close brace, greedy): the
  match runs from the first open brace to the last close brace of the text.
* `extract_json_object`, `dispatchChoice` and `invokeToolFlow` model the
  extraction, guard and remote-call steps of `invoke_tool_with_ollama`.
* `handle_call_tool` and the tool list model `server.py`.
* `create_tool_prompt_test2` and `create_tool_prompt_testmcp` model the two
  prompt generators; `result_lines_test2`, `result_lines_test3` and
  `result_lines_testmcp` model the result-display logic of the three client
  flows.

Python strings are modelled as `List Char` where character-level scanning
matters and as `String` elsewhere.
-/

/-- Left curly brace character, written by code point to keep string scanning
uniform. -/
def lbrace : Char := Char.ofNat 123

/-- Right curly brace character. -/
def rbrace : Char := Char.ofNat 125

/-- JSON values as produced by `json.loads`. A number is the exact decimal
`mantissa * 10 ^ exponent` read from the literal; an object keeps its
members in insertion order with a later duplicate key replacing the value of
the earlier one, as a Python dict does. -/
inductive Json where
  | null : Json
  | bool (b : Bool) : Json
  | num (mantissa : Int) (exponent : Int) : Json
  | str (s : String) : Json
  | arr (items : List Json) : Json
  | obj (entries : List (String × Json)) : Json

/-- Insert a key into an association list with Python-dict semantics: a
present key keeps its position and takes the new value, a new key is appended. -/
def upsert (kvs : List (String × Json)) (k : String) (v : Json) : List (String × Json) :=
  match kvs with
  | [] => [(k, v)]
  | (k0, v0) :: rest => if k0 = k then (k0, v) :: rest else (k0, v0) :: upsert rest k v

/-- JSON whitespace accepted by `json.loads`. -/
def jsonWs (c : Char) : Bool := (c == ' ') || (c == '\t') || (c == '\n') || (c == '\r')

/-- Drop leading JSON whitespace. -/
def skipWs (cs : List Char) : List Char := cs.dropWhile jsonWs

/-- Numeric value of a hexadecimal digit. -/
def hexVal (c : Char) : Option Nat :=
  if '0' ≤ c ∧ c ≤ '9' then some (c.toNat - 48)
  else if 'a' ≤ c ∧ c ≤ 'f' then some (c.toNat - 87)
  else if 'A' ≤ c ∧ c ≤ 'F' then some (c.toNat - 55)
  else none

/-- Value of a list of decimal digits. -/
def digitsToNat (ds : List Char) : Nat := ds.foldl (fun n c => 10 * n + (c.toNat - 48)) 0

/-- Parse an optional fraction part: a dot followed by at least one digit, or
nothing. Returns the fraction digits and the rest. -/
def parseFrac (cs : List Char) : Option (List Char × List Char) :=
  match cs with
  | c :: r =>
    if c = '.' then
      let ds := r.takeWhile Char.isDigit
      if ds.isEmpty then none else some (ds, r.dropWhile Char.isDigit)
    else some ([], cs)
  | [] => some ([], cs)

/-- Parse an optional exponent part: `e` or `E`, an optional sign, at least
one digit. Returns the signed exponent and the rest. -/
def parseExp (cs : List Char) : Option (Int × List Char) :=
  match cs with
  | c :: r =>
    if c = 'e' ∨ c = 'E' then
      let (esign, r1) : Int × List Char :=
        match r with
        | s :: rr => if s = '+' then (1, rr) else if s = '-' then (-1, rr) else (1, r)
        | [] => (1, r)
      let ds := r1.takeWhile Char.isDigit
      if ds.isEmpty then none
      else some (esign * (digitsToNat ds : Int), r1.dropWhile Char.isDigit)
    else some (0, cs)
  | [] => some (0, cs)

/-- Parse a JSON number literal: optional minus, integer part without leading
zeros, optional fraction, optional exponent. -/
def parseNumber (cs : List Char) : Option (Json × List Char) :=
  let (neg, cs1) : Bool × List Char :=
    match cs with
    | c :: r => if c = '-' then (true, r) else (false, cs)
    | [] => (false, cs)
  match cs1 with
  | [] => none
  | d :: tl =>
    if d.isDigit then
      let (intDigits, cs2) : List Char × List Char :=
        if d = '0' then ([d], tl)
        else (cs1.takeWhile Char.isDigit, cs1.dropWhile Char.isDigit)
      match parseFrac cs2 with
      | none => none
      | some (fracDigits, cs3) =>
        match parseExp cs3 with
        | none => none
        | some (e, cs4) =>
          let mAbs : Nat := digitsToNat (intDigits ++ fracDigits)
          let m : Int := if neg then -(mAbs : Int) else (mAbs : Int)
          some (Json.num m (e - (fracDigits.length : Int)), cs4)
    else none

mutual

/-- Parse one JSON value at the head of the input (leading whitespace already
skipped). The fuel argument only bounds recursion depth; `parseJson` supplies
enough of it for any input. -/
def parseValue : Nat → List Char → Option (Json × List Char)
  | 0, _ => none
  | fuel + 1, cs =>
    match cs with
    | [] => none
    | c :: rest =>
      if c = lbrace then parseObjectBody fuel rest
      else if c = '[' then parseArrayBody fuel rest
      else if c = '"' then
        match parseStringBody fuel rest [] with
        | some (s, r) => some (Json.str s, r)
        | none => none
      else if c = 't' then
        match rest with
        | 'r' :: 'u' :: 'e' :: r => some (Json.bool true, r)
        | _ => none
      else if c = 'f' then
        match rest with
        | 'a' :: 'l' :: 's' :: 'e' :: r => some (Json.bool false, r)
        | _ => none
      else if c = 'n' then
        match rest with
        | 'u' :: 'l' :: 'l' :: r => some (Json.null, r)
        | _ => none
      else parseNumber cs

/-- Parse the remainder of an object, right after its opening brace. -/
def parseObjectBody : Nat → List Char → Option (Json × List Char)
  | 0, _ => none
  | fuel + 1, cs =>
    match skipWs cs with
    | [] => none
    | c :: rest =>
      if c = rbrace then some (Json.obj [], rest)
      else parseMembers fuel (c :: rest) []

/-- Parse the members of an object, the next key expected at the head. -/
def parseMembers : Nat → List Char → List (String × Json) → Option (Json × List Char)
  | 0, _, _ => none
  | fuel + 1, cs, acc =>
    match cs with
    | '"' :: rest =>
      match parseStringBody fuel rest [] with
      | none => none
      | some (k, r1) =>
        match skipWs r1 with
        | ':' :: r2 =>
          match parseValue fuel (skipWs r2) with
          | none => none
          | some (v, r3) =>
            match skipWs r3 with
            | c :: r4 =>
              if c = rbrace then some (Json.obj (upsert acc k v), r4)
              else if c = ',' then parseMembers fuel (skipWs r4) (upsert acc k v)
              else none
            | [] => none
        | _ => none
    | _ => none

/-- Parse the remainder of an array, right after its opening bracket. -/
def parseArrayBody : Nat → List Char → Option (Json × List Char)
  | 0, _ => none
  | fuel + 1, cs =>
    match skipWs cs with
    | [] => none
    | c :: rest =>
      if c = ']' then some (Json.arr [], rest)
      else parseElements fuel (c :: rest) []

/-- Parse the elements of an array; the accumulator is reversed. -/
def parseElements : Nat → List Char → List Json → Option (Json × List Char)
  | 0, _, _ => none
  | fuel + 1, cs, acc =>
    match parseValue fuel cs with
    | none => none
    | some (v, r1) =>
      match skipWs r1 with
      | c :: r2 =>
        if c = ']' then some (Json.arr (v :: acc).reverse, r2)
        else if c = ',' then parseElements fuel (skipWs r2) (v :: acc)
        else none
      | [] => none

/-- Parse the remainder of a string literal, right after its opening quote;
the accumulator is reversed. Control characters are rejected as in the strict
mode of `json.loads`. -/
def parseStringBody : Nat → List Char → List Char → Option (String × List Char)
  | 0, _, _ => none
  | fuel + 1, cs, acc =>
    match cs with
    | [] => none
    | c :: rest =>
      if c = '"' then some (String.mk acc.reverse, rest)
      else if c = '\\' then
        match rest with
        | [] => none
        | e :: rest2 =>
          if e = '"' then parseStringBody fuel rest2 ('"' :: acc)
          else if e = '\\' then parseStringBody fuel rest2 ('\\' :: acc)
          else if e = '/' then parseStringBody fuel rest2 ('/' :: acc)
          else if e = 'b' then parseStringBody fuel rest2 (Char.ofNat 8 :: acc)
          else if e = 'f' then parseStringBody fuel rest2 (Char.ofNat 12 :: acc)
          else if e = 'n' then parseStringBody fuel rest2 ('\n' :: acc)
          else if e = 'r' then parseStringBody fuel rest2 ('\r' :: acc)
          else if e = 't' then parseStringBody fuel rest2 ('\t' :: acc)
          else if e = 'u' then
            match rest2 with
            | h1 :: h2 :: h3 :: h4 :: rest3 =>
              match hexVal h1, hexVal h2, hexVal h3, hexVal h4 with
              | some a, some b, some c2, some d2 =>
                parseStringBody fuel rest3 (Char.ofNat (((a * 16 + b) * 16 + c2) * 16 + d2) :: acc)
              | _, _, _, _ => none
            | _ => none
          else none
      else if c.toNat < 32 then none
      else parseStringBody fuel rest (c :: acc)

end

/-- Model of Python `json.loads`: parse the whole text as one JSON document,
leading and trailing whitespace allowed, anything else trailing refused. -/
def parseJson (text : List Char) : Option Json :=
  match parseValue (3 * text.length + 8) (skipWs text) with
  | some (v, rest) => if (skipWs rest).isEmpty then some v else none
  | none => none

example : parseJson ("\x7b\"a\": 1\x7d".toList) = some (Json.obj [("a", Json.num 1 0)]) := rfl
example : parseJson ("[1, 2]".toList) = some (Json.arr [Json.num 1 0, Json.num 2 0]) := rfl
example : parseJson ("  -1.25e2 ".toList) = some (Json.num (-125) 0) := rfl
example : parseJson ("\x7b\"a\": 1\x7d x".toList) = none := rfl
example : parseJson ("\"a\\nb\"".toList) = some (Json.str "a\nb") := rfl
example : parseJson ("01".toList) = none := rfl
example : parseJson ("\x7b\"a\": true, \"a\": null\x7d".toList) = some (Json.obj [("a", Json.null)]) := rfl

/-!
The selection extractor of `test3/mcp_ollama_client.py`.
-/

/-- Model of the greedy recovery regex of `_extract_json_object`: it looks
for an open brace, any characters, a close brace, with the middle part
greedy, so the match runs from the first open brace of the text to the last
close brace, and exists exactly when some close brace follows some open
brace. Returns the matched substring. -/
def braceMatch (text : List Char) : Option (List Char) :=
  match text.dropWhile (fun c => c != lbrace) with
  | [] => none
  | c :: rest =>
    match rest.reverse.dropWhile (fun c2 => c2 != rbrace) with
    | [] => none
    | r => some (c :: r.reverse)

/-- Failure modes of the extraction and guard steps of
`invoke_tool_with_ollama`; each corresponds to one `raise` of the source. -/
inductive FlowError where
  | noJsonObject : FlowError
  | jsonDecodeError : FlowError
  | invalidToolChoice (choice : Json) : FlowError

/-- Model of `_extract_json_object`: strict parse of the whole text first,
then parse of the greedy first-open-brace-to-last-close-brace span; the
errors mirror the `ValueError` for a missing match and the `JSONDecodeError`
escaping from `json.loads` on a span that does not parse. -/
def extract_json_object (text : List Char) : Except FlowError Json :=
  match parseJson text with
  | some v => Except.ok v
  | none =>
    match braceMatch text with
    | none => Except.error FlowError.noJsonObject
    | some sub =>
      match parseJson sub with
      | some v => Except.ok v
      | none => Except.error FlowError.jsonDecodeError

/-- First-match lookup in an association list, the model of reading a Python
dict produced by `json.loads` (whose keys are unique). -/
def dictGet (kvs : List (String × Json)) (k : String) : Option Json :=
  match kvs with
  | [] => none
  | (k0, v0) :: rest => if k0 = k then some v0 else dictGet rest k

/-- Lookup with a default, the model of Python `dict.get(k, d)`. -/
def dictGetD (kvs : List (String × Json)) (k : String) (d : Json) : Json :=
  (dictGet kvs k).getD d

/-- The guard of `invoke_tool_with_ollama`: the extracted value must be a
dict containing both a `name` and an `arguments` key. -/
def isValidChoice : Json → Bool
  | Json.obj kvs => (dictGet kvs "name").isSome && (dictGet kvs "arguments").isSome
  | _ => false

/-- Subscript access `choice[k]` on a guarded choice. -/
def jsonField : Json → String → Json
  | Json.obj kvs, k => dictGetD kvs k Json.null
  | _, _ => Json.null

/-- The pair handed to `session.call_tool`: its presence in the flow result
means the remote call was made. The source passes `choice["name"]` and
`choice["arguments"]` through without further checks, so both fields are
arbitrary JSON values. -/
structure McpCall where
  callName : Json
  callArguments : Json

/-- The guard-and-call step of `invoke_tool_with_ollama`: an extracted value
that is not a dict with `name` and `arguments` raises, anything else goes to
the remote call untouched. -/
def dispatchChoice (choice : Json) : Except FlowError McpCall :=
  if isValidChoice choice then
    Except.ok ⟨jsonField choice "name", jsonField choice "arguments"⟩
  else Except.error (FlowError.invalidToolChoice choice)

/-- The decision core of `invoke_tool_with_ollama`: extract a choice from
the model output, guard it, and produce the remote call. An error means the
flow raised before `session.call_tool`. -/
def invokeToolFlow (content : List Char) : Except FlowError McpCall :=
  match extract_json_object content with
  | Except.error e => Except.error e
  | Except.ok choice => dispatchChoice choice

/-- Whether a flow outcome reached the remote call. -/
def makesRemoteCall : Except FlowError McpCall → Bool
  | Except.ok _ => true
  | Except.error _ => false

/-- Declarative candidate value of the extraction step: the strict parse of
the whole text, or else the parse of the greedy brace span. -/
def candidateJson (text : List Char) : Option Json :=
  match parseJson text with
  | some v => some v
  | none =>
    match braceMatch text with
    | none => none
    | some sub => parseJson sub

example : extract_json_object ("note \x7b\"a\": 1\x7d end".toList) = Except.ok (Json.obj [("a", Json.num 1 0)]) := rfl
example : extract_json_object ("ok \x7b\"a\": 1\x7d end\x7d".toList) = Except.error FlowError.jsonDecodeError := rfl
example : extract_json_object ("no object".toList) = Except.error FlowError.noJsonObject := rfl

/-!
Serialization helpers. `dumpsJson` models `json.dumps` output content
(member order and values; the `indent=2` layout is not reproduced, and no
claim depends on the rendered text). `pyStr` and `pyRepr` model Python
`str()` and `repr()` of a loaded JSON value as used inside f-strings;
the repr of a float is rendered as its exact decimal, which can differ from
the shortest-roundtrip repr Python prints, and no claim depends on it.
-/

/-- Decimal rendering of a parsed number `mantissa * 10 ^ exponent`. An
integer literal renders as the integer; anything else is rendered with a
decimal point. -/
def numStr (m e : Int) : String :=
  if e = 0 then toString m
  else if 0 ≤ e then toString (m * (10 : Int) ^ e.toNat) ++ ".0"
  else
    let s := toString m.natAbs
    let k := (-e).toNat
    let ds := if s.length ≤ k then String.mk (List.replicate (k + 1 - s.length) '0') ++ s else s
    let point := ds.length - k
    (if m < 0 then "-" else "") ++ String.mk (ds.toList.take point)
      ++ "." ++ String.mk (ds.toList.drop point)

mutual

/-- Model of `json.dumps` content for a JSON value. -/
def dumpsJson : Json → String
  | Json.null => "null"
  | Json.bool true => "true"
  | Json.bool false => "false"
  | Json.num m e => numStr m e
  | Json.str s => "\"" ++ s ++ "\""
  | Json.arr items => "[" ++ dumpsItems items ++ "]"
  | Json.obj kvs => "\x7b" ++ dumpsEntries kvs ++ "\x7d"

/-- Comma-separated items of an array. -/
def dumpsItems : List Json → String
  | [] => ""
  | [x] => dumpsJson x
  | x :: xs => dumpsJson x ++ ", " ++ dumpsItems xs

/-- Comma-separated members of an object. -/
def dumpsEntries : List (String × Json) → String
  | [] => ""
  | [(k, v)] => "\"" ++ k ++ "\": " ++ dumpsJson v
  | (k, v) :: kvs => "\"" ++ k ++ "\": " ++ dumpsJson v ++ ", " ++ dumpsEntries kvs

end

mutual

/-- Model of Python `repr()` on a loaded JSON value. -/
def pyRepr : Json → String
  | Json.null => "None"
  | Json.bool true => "True"
  | Json.bool false => "False"
  | Json.num m e => numStr m e
  | Json.str s => "\x27" ++ s ++ "\x27"
  | Json.arr items => "[" ++ pyReprItems items ++ "]"
  | Json.obj kvs => "\x7b" ++ pyReprEntries kvs ++ "\x7d"

/-- Comma-separated reprs of list items. -/
def pyReprItems : List Json → String
  | [] => ""
  | [x] => pyRepr x
  | x :: xs => pyRepr x ++ ", " ++ pyReprItems xs

/-- Comma-separated reprs of dict members. -/
def pyReprEntries : List (String × Json) → String
  | [] => ""
  | [(k, v)] => "\x27" ++ k ++ "\x27: " ++ pyRepr v
  | (k, v) :: kvs => "\x27" ++ k ++ "\x27: " ++ pyRepr v ++ ", " ++ pyReprEntries kvs

end

/-- Model of Python `str()` on a loaded JSON value: like `repr()` except
that a top-level string renders without quotes. -/
def pyStr (v : Json) : String :=
  match v with
  | Json.str s => s
  | _ => pyRepr v

/-!
Result payloads and the result-display logic of the three client flows.
-/

/-- One content block of a tool result: either a text block (its `type`
attribute is `"text"` and it carries `.text`) or any other block kind. -/
inductive ContentBlock where
  | text (s : String) : ContentBlock
  | other (btype : String) (payload : Json) : ContentBlock

/-- The text of a text block, none otherwise; both the
`getattr(b, "type", None) == "text"` filter of `test2`/`test3` and the
`hasattr(block, "text")` filter of `test-mcp` keep exactly the text blocks. -/
def blockText? : ContentBlock → Option String
  | ContentBlock.text s => some s
  | ContentBlock.other _ _ => none

/-- The `text_blocks` list every client flow builds: the texts of the text
blocks, in payload order. -/
def textBlocks (content : List ContentBlock) : List String := content.filterMap blockText?

/-- A `call_tool` result: its ordered content blocks and its optional
structured content. -/
structure CallToolResult where
  rcontent : List ContentBlock
  structuredContent : Option Json

/-- Abbreviated `model_dump()` of a result, used only inside the raw
fallback serialization whose exact text no claim relies on. -/
def resultToJson (r : CallToolResult) : Json :=
  Json.obj [("content", Json.arr (r.rcontent.map (fun b =>
      match b with
      | ContentBlock.text s => Json.obj [("type", Json.str "text"), ("text", Json.str s)]
      | ContentBlock.other ty p => Json.obj [("type", Json.str ty), ("data", p)]))),
    ("structuredContent", (r.structuredContent).getD Json.null)]

/-- Result-display lines of `invoke_tool_with_gemini` and
`invoke_tool_with_ollama` (test3): only the FIRST text block is printed when
any text block exists; otherwise the structured content; otherwise a raw
dump. The `Input:`/`Tool:` lines, which do not depend on the payload, are
not modelled. -/
def result_lines_test3 (r : CallToolResult) : List String :=
  match textBlocks r.rcontent with
  | t :: _ => ["Result: " ++ t]
  | [] =>
    match r.structuredContent with
    | some sc => ["Result (structured):", dumpsJson sc]
    | none => ["Result (raw):", dumpsJson (resultToJson r)]

/-- Result-display lines of `execute_tool_flow` (test2): one bulleted line
per text block, or a dump of the whole result when no text block exists. -/
def result_lines_test2 (r : CallToolResult) : List String :=
  let tb := textBlocks r.rcontent
  if tb.isEmpty then [dumpsJson (resultToJson r)]
  else tb.map (fun t => "- " ++ t)

/-- Result-display lines of `process_user_request` (test-mcp): one bulleted
line per text block, with NO fallback branch of any kind. -/
def result_lines_testmcp (r : CallToolResult) : List String :=
  (textBlocks r.rcontent).map (fun t => "- " ++ t)

/-!
The tool catalog data model and the `server.py` stdio server.
-/

/-- One member of an `anyOf` union in a parameter schema; `atype` models its
optional `type` key. -/
structure AnyOfMember where
  atype : Option String

/-- A parameter schema as the prompt generator reads it: the optional `type`
key and the optional `anyOf` list (its `description` key is read nowhere and
is omitted). -/
structure PropSchema where
  ptype : Option String
  anyOf : Option (List AnyOfMember)

/-- A tool descriptor: name, optional description, the ordered `properties`
mapping of its input schema, and its `required` list, with the `.get`
defaults (empty mapping, empty list) already applied. -/
structure ToolDef where
  name : String
  description : Option String
  properties : List (String × PropSchema)
  required : List String

/-- The `echo` tool of `server.py`. -/
def echoTool : ToolDef :=
  ⟨"echo", some "Echo back the input text", [("text", ⟨some "string", none⟩)], ["text"]⟩

/-- The `current_time` tool of `server.py`: no properties, no required list. -/
def currentTimeTool : ToolDef :=
  ⟨"current_time", some "Get the current date and time", [], []⟩

/-- The `add_numbers` tool of `server.py`. -/
def addNumbersTool : ToolDef :=
  ⟨"add_numbers", some "Add two numbers together",
    [("a", ⟨some "number", none⟩), ("b", ⟨some "number", none⟩)], ["a", "b"]⟩

/-- The catalog `handle_list_tools` advertises. -/
def serverTools : List ToolDef := [echoTool, currentTimeTool, addNumbersTool]

/-- Whether a loaded JSON value is Python `None`. -/
def pyIsNone : Json → Bool
  | Json.null => true
  | _ => false

/-- Python addition on loaded JSON values, as `a + b` in the `add_numbers`
handler: numbers add (exactly, on the decimal representation; the IEEE
rounding of Python floats is not modelled and no claim depends on it),
booleans count as integers, strings and lists concatenate, anything else is
a `TypeError`. -/
def pyAdd (a b : Json) : Option Json :=
  match a, b with
  | Json.str s1, Json.str s2 => some (Json.str (s1 ++ s2))
  | Json.arr l1, Json.arr l2 => some (Json.arr (l1 ++ l2))
  | _, _ =>
    let toNum : Json → Option (Int × Int) := fun v =>
      match v with
      | Json.num m e => some (m, e)
      | Json.bool true => some (1, 0)
      | Json.bool false => some (0, 0)
      | _ => none
    match toNum a, toNum b with
    | some (m1, e1), some (m2, e2) =>
      if e1 ≤ e2 then some (Json.num (m1 + m2 * (10 : Int) ^ (e2 - e1).toNat) e1)
      else some (Json.num (m1 * (10 : Int) ^ (e1 - e2).toNat + m2) e2)
    | _, _ => none

/-- Model of `handle_call_tool` of `server.py`. `now` stands for the
formatted current time (the clock is external input). An `Except.error`
models a raised `ValueError` (or `TypeError` from the addition) with its
message. -/
def handle_call_tool (now : String) (nm : String)
    (arguments : Option (List (String × Json))) : Except String (List ContentBlock) :=
  if nm = "echo" then
    let t : Json :=
      match arguments with
      | some args => dictGetD args "text" (Json.str "")
      | none => Json.str ""
    Except.ok [ContentBlock.text ("Echo: " ++ pyStr t)]
  else if nm = "current_time" then
    Except.ok [ContentBlock.text ("Current time: " ++ now)]
  else if nm = "add_numbers" then
    match arguments with
    | none => Except.error "Arguments required for add_numbers"
    | some args =>
      if args.isEmpty then Except.error "Arguments required for add_numbers"
      else
        let a := dictGetD args "a" Json.null
        let b := dictGetD args "b" Json.null
        if pyIsNone a || pyIsNone b then
          Except.error "Both \x27a\x27 and \x27b\x27 parameters are required"
        else
          match pyAdd a b with
          | some r =>
            Except.ok [ContentBlock.text
              ("Result: " ++ pyStr a ++ " + " ++ pyStr b ++ " = " ++ pyStr r)]
          | none => Except.error "TypeError: unsupported operand types"
  else Except.error ("Unknown tool: " ++ nm)

/-!
The prompt generators.
-/

/-- Python `str()` of an `Optional[str]`, as an f-string renders it. -/
def optTypeStr : Option String → String
  | some s => s
  | none => "None"

/-- Python whitespace for `str.split()` (the ASCII part). -/
def pyWs (c : Char) : Bool := c.isWhitespace || (c == Char.ofNat 11) || (c == Char.ofNat 12)

/-- The words of a string, splitting on runs of whitespace and dropping
empty pieces, as Python `str.split()` with no argument does; the first
argument accumulates the current word reversed. -/
def wsTokens (acc : List Char) : List Char → List String
  | [] => if acc.isEmpty then [] else [String.mk acc.reverse]
  | c :: cs =>
    if pyWs c then
      if acc.isEmpty then wsTokens [] cs
      else String.mk acc.reverse :: wsTokens [] cs
    else wsTokens (c :: acc) cs

/-- Model of `" ".join(description.strip().split())`: collapse every run of
whitespace to one space and trim the ends. -/
def cleanDescription (d : String) : String :=
  " ".intercalate (wsTokens [] d.toList)

/-- The resolved display type of a parameter, exactly as
`create_tool_prompt` of test2 computes it: the `type` key (default `any`),
overridden by the first member type of `anyOf` that is not the literal
`"null"` whenever that filtered list is non-empty (a member without a `type`
key contributes Python `None`, rendered `None`). -/
def argTypeStr (sch : PropSchema) : String :=
  let base := sch.ptype.getD "any"
  match sch.anyOf with
  | none => base
  | some ms =>
    match (ms.map AnyOfMember.atype).filter (fun t => t != some "null") with
    | [] => base
    | t :: _ => optTypeStr t

/-- The required/optional status word of a parameter. -/
def statusOf (required : List String) (n : String) : String :=
  if required.contains n then "required" else "optional"

/-- The tool-header line of test2, with its embedded leading newline. -/
def toolHeader (nm : String) : String := "\n- Tool Name: `" ++ nm ++ "`"

/-- One parameter line of test2. -/
def paramLine (n ty st : String) : String :=
  "    - `" ++ n ++ "` (type: " ++ ty ++ ", status: " ++ st ++ ")"

/-- The description line of a tool, present when the description is truthy. -/
def descLines (d : Option String) : List String :=
  match d with
  | some s => if s = "" then [] else ["  Description: " ++ cleanDescription s]
  | none => []

/-- The argument lines of a tool: the `Arguments: None` marker for an empty
properties mapping, else a header and one line per property. -/
def argLines (props : List (String × PropSchema)) (required : List String) : List String :=
  if props.isEmpty then ["  Arguments: None"]
  else "  Arguments:" ::
    props.map (fun pr => paramLine pr.1 (argTypeStr pr.2) (statusOf required pr.1))

/-- All prompt lines one tool contributes in test2. -/
def toolSection (t : ToolDef) : List String :=
  toolHeader t.name :: (descLines t.description ++ argLines t.properties t.required)

/-- The `prompt_lines` list of `create_tool_prompt` of test2. -/
def prompt_lines (tools : List ToolDef) : List String :=
  "You are an expert tool selector. Based on the user\x27s input, choose the single most appropriate tool and provide the necessary arguments."
    :: "Here are the available tools:"
    :: (tools.map toolSection).flatten

/-- Model of `create_tool_prompt` of `test2/mcp_ollama_client.py`. -/
def create_tool_prompt_test2 (tools : List ToolDef) : String :=
  "\n".intercalate (prompt_lines tools)

/-- One tool line of the test-mcp prompt generator. -/
def mcpToolLine (t : ToolDef) : String :=
  "- " ++ t.name ++ ": " ++ optTypeStr t.description ++ "\n"

/-- Model of `create_tool_prompt` of `test-mcp/mcp_ollama_client.py`: the
fixed header directly followed by one name-and-description line per tool,
with no parameter information at all. -/
def create_tool_prompt_testmcp (tools : List ToolDef) : String :=
  "You are an expert tool selector. Based on the user\x27s input, choose the single most appropriate tool and provide the necessary arguments.\n\nHere are the available tools:"
    ++ String.join (tools.map mcpToolLine)

/-!
Small reusable helpers for the theorems.
-/

/-- Whether `pat` is a prefix of the second list, decided character by
character. -/
def listStartsWith : List Char → List Char → Bool
  | [], _ => true
  | _ :: _, [] => false
  | p :: ps, c :: cs => (p == c) && listStartsWith ps cs

/-- Whether `pat` occurs as a contiguous substring. -/
def containsStr (pat : List Char) : List Char → Bool
  | [] => listStartsWith pat []
  | c :: cs => listStartsWith pat (c :: cs) || containsStr pat cs

/-- Number of occurrences of a string in a list of lines. -/
def occ (x : String) (l : List String) : Nat := (l.filter (fun y => y == x)).length

/-- The JSON Schema name of the runtime type of a value. -/
def jsonTypeName : Json → String
  | Json.null => "null"
  | Json.bool _ => "boolean"
  | Json.num _ _ => "number"
  | Json.str _ => "string"
  | Json.arr _ => "array"
  | Json.obj _ => "object"

/-- The declared type of a parameter of a catalog tool, as the prompt
generator would resolve it. -/
def declaredParamType (tools : List ToolDef) (toolName paramName : String) : Option String :=
  match tools.find? (fun t => t.name == toolName) with
  | none => none
  | some t =>
    match t.properties.find? (fun pr => pr.1 == paramName) with
    | none => none
    | some pr => some (argTypeStr pr.2)

/-- The backtick character, by code point. -/
def btick : Char := Char.ofNat 96

/-- Whether a string contains no backtick; parameter names rendered between
backticks are recovered unambiguously only under this condition. -/
def noBacktick (s : String) : Bool := s.toList.all (fun c => c != btick)

/-- Modelled from the spec: among the member types an `anyOf` union
declares, in order, the first one that is not `null`. Stated separately from
`argTypeStr` (which is translated from the code) so the two can be compared. -/
def firstNonNullDeclared (ms : List AnyOfMember) : Option String :=
  (ms.filterMap AnyOfMember.atype).find? (fun t => t != "null")

example : create_tool_prompt_testmcp [currentTimeTool] =
    "You are an expert tool selector. Based on the user\x27s input, choose the single most appropriate tool and provide the necessary arguments.\n\nHere are the available tools:- current_time: Get the current date and time\n" := rfl
example : toolSection currentTimeTool =
    ["\n- Tool Name: `current_time`", "  Description: Get the current date and time", "  Arguments: None"] := rfl
example : toolSection addNumbersTool =
    ["\n- Tool Name: `add_numbers`", "  Description: Add two numbers together", "  Arguments:",
     "    - `a` (type: number, status: required)", "    - `b` (type: number, status: required)"] := rfl
example : handle_call_tool "" "subtract_numbers" none = Except.error "Unknown tool: subtract_numbers" := rfl
example : handle_call_tool "" "add_numbers" (some [("a", Json.num 7 0)]) =
    Except.error "Both \x27a\x27 and \x27b\x27 parameters are required" := rfl

/-!
Theorems. Each claim of the specification gets one theorem (plus a witness
when the theorem carries hypotheses, and a counterexample where the claim
fails on the code).
-/

/-- C10: raw model output that strictly parses as JSON but is not an object
(here the bare array `[1, 2]`) is returned unchanged by the strict-parse
fast path of `_extract_json_object` instead of failing; the missing
`name`/`arguments` keys are only detected by the separate guard performed
after extraction returns, which raises carrying that very value. -/
theorem fast_path_returns_non_object :
    extract_json_object ("[1, 2]".toList) = Except.ok (Json.arr [Json.num 1 0, Json.num 2 0])
    ∧ isValidChoice (Json.arr [Json.num 1 0, Json.num 2 0]) = false
    ∧ invokeToolFlow ("[1, 2]".toList)
        = Except.error (FlowError.invalidToolChoice (Json.arr [Json.num 1 0, Json.num 2 0])) :=
  ⟨rfl, rfl, rfl⟩

/-- Auxiliary for C8: when every `anyOf` member declares a type, the head of
the filtered type list of the code is the first declared non-null type. -/
theorem filter_head_eq_first_non_null (ms : List AnyOfMember) (ty : String)
    (hdecl : ∀ m ∈ ms, (AnyOfMember.atype m).isSome = true)
    (hfirst : firstNonNullDeclared ms = some ty) :
    ((ms.map AnyOfMember.atype).filter (fun t => t != some "null")).head? = some (some ty) := by
  induction ms with
  | nil => simp [firstNonNullDeclared] at hfirst
  | cons m rest ih =>
    obtain ⟨v, hv⟩ := Option.isSome_iff_exists.mp (hdecl m (List.mem_cons_self m rest))
    unfold firstNonNullDeclared at hfirst
    rw [List.filterMap_cons, hv] at hfirst
    by_cases hnull : v = "null"
    · subst hnull
      rw [List.find?_cons_of_neg _ (by simp)] at hfirst
      rw [List.map_cons, hv, List.filter_cons_of_neg (by simp)]
      exact ih (fun m2 hm2 => hdecl m2 (List.mem_cons_of_mem _ hm2)) hfirst
    · rw [List.find?_cons_of_pos _ (by simp [hnull])] at hfirst
      rw [List.map_cons, hv, List.filter_cons_of_pos (by simp [hnull])]
      simpa using hfirst

/-- C8: for a parameter whose schema declares an `anyOf` union whose members
all carry a declared type, the adapter resolves the parameter to the first
declared type of the union that is not `null`, discarding null
alternatives. -/
theorem anyof_resolves_first_non_null (sch : PropSchema) (ms : List AnyOfMember) (ty : String)
    (hms : sch.anyOf = some ms)
    (hdecl : ∀ m ∈ ms, (AnyOfMember.atype m).isSome = true)
    (hfirst : firstNonNullDeclared ms = some ty) :
    argTypeStr sch = ty := by
  have hhead := filter_head_eq_first_non_null ms ty hdecl hfirst
  cases hf : (ms.map AnyOfMember.atype).filter (fun t => t != some "null") with
  | nil => rw [hf] at hhead; simp at hhead
  | cons x xs =>
    rw [hf] at hhead
    simp at hhead
    obtain ⟨pt, ao⟩ := sch
    change ao = some ms at hms
    subst hms
    simp [argTypeStr, hf, hhead, optTypeStr]

/-- Witness for C8 at a union `null | string | integer` of the kind the claim
names: the resolved type is `string`, the first non-null member. -/
theorem anyof_resolves_first_non_null_witness :
    argTypeStr ⟨none, some [⟨some "null"⟩, ⟨some "string"⟩, ⟨some "integer"⟩]⟩ = "string" :=
  anyof_resolves_first_non_null _ [⟨some "null"⟩, ⟨some "string"⟩, ⟨some "integer"⟩] "string"
    rfl (by decide) rfl

/-- C1 counterexample: the text `Okay! ...object... done :-CLOSE` embeds a
well-formed `name`/`arguments` object in prose, but because the prose after
the object contains one more close brace, the greedy first-open-to-last-close
span does not parse and extraction raises, instead of recovering the first
balanced object unchanged as the claim states. -/
theorem extractor_misses_embedded_object :
    parseJson ("\x7b\"name\": \"t\", \"arguments\": \x7b\x7d\x7d".toList)
      = some (Json.obj [("name", Json.str "t"), ("arguments", Json.obj [])])
    ∧ "Okay! \x7b\"name\": \"t\", \"arguments\": \x7b\x7d\x7d done :-\x7d".toList
        = "Okay! ".toList ++ "\x7b\"name\": \"t\", \"arguments\": \x7b\x7d\x7d".toList
          ++ " done :-\x7d".toList
    ∧ extract_json_object ("Okay! \x7b\"name\": \"t\", \"arguments\": \x7b\x7d\x7d done :-\x7d".toList)
      = Except.error FlowError.jsonDecodeError :=
  ⟨rfl, rfl, rfl⟩

/-- C4 counterexample: the text embeds a well-formed object that carries
both `name` and `arguments`, yet extraction fails (the trailing prose
contains a stray close brace, so the greedy span does not parse): extraction
failure is not equivalent to the absence of a recoverable object. -/
theorem extraction_fails_despite_embedded_object :
    parseJson ("\x7b\"name\": \"echo\", \"arguments\": \x7b\"text\": \"hi\"\x7d\x7d".toList)
      = some (Json.obj [("name", Json.str "echo"),
          ("arguments", Json.obj [("text", Json.str "hi")])])
    ∧ isValidChoice (Json.obj [("name", Json.str "echo"),
          ("arguments", Json.obj [("text", Json.str "hi")])]) = true
    ∧ "See: \x7b\"name\": \"echo\", \"arguments\": \x7b\"text\": \"hi\"\x7d\x7d bye\x7d".toList
        = "See: ".toList
          ++ "\x7b\"name\": \"echo\", \"arguments\": \x7b\"text\": \"hi\"\x7d\x7d".toList
          ++ " bye\x7d".toList
    ∧ invokeToolFlow ("See: \x7b\"name\": \"echo\", \"arguments\": \x7b\"text\": \"hi\"\x7d\x7d bye\x7d".toList)
      = Except.error FlowError.jsonDecodeError :=
  ⟨rfl, rfl, rfl, rfl⟩

/-- C2 counterexample: `add_numbers` requires both `a` and `b`; a selection
whose arguments carry only `a` is not rejected by any MissingArgumentError,
and the remote call is made with the incomplete arguments. -/
theorem missing_required_argument_is_forwarded :
    addNumbersTool.required = ["a", "b"]
    ∧ (dictGet [("a", Json.num 7 0)] "b").isSome = false
    ∧ invokeToolFlow ("\x7b\"name\": \"add_numbers\", \"arguments\": \x7b\"a\": 7\x7d\x7d".toList)
        = Except.ok ⟨Json.str "add_numbers", Json.obj [("a", Json.num 7 0)]⟩
    ∧ makesRemoteCall
        (invokeToolFlow ("\x7b\"name\": \"add_numbers\", \"arguments\": \x7b\"a\": 7\x7d\x7d".toList))
        = true :=
  ⟨rfl, rfl, rfl, rfl⟩

/-- C3 counterexample: `subtract_numbers` is not a catalog tool, yet the
dispatcher forwards the selection to the remote call instead of rejecting it
with an UnknownToolError. -/
theorem unknown_tool_is_forwarded :
    ((serverTools.map ToolDef.name).contains "subtract_numbers") = false
    ∧ invokeToolFlow
        ("\x7b\"name\": \"subtract_numbers\", \"arguments\": \x7b\"a\": 1, \"b\": 2\x7d\x7d".toList)
        = Except.ok ⟨Json.str "subtract_numbers",
            Json.obj [("a", Json.num 1 0), ("b", Json.num 2 0)]⟩
    ∧ makesRemoteCall
        (invokeToolFlow
          ("\x7b\"name\": \"subtract_numbers\", \"arguments\": \x7b\"a\": 1, \"b\": 2\x7d\x7d".toList))
        = true :=
  ⟨rfl, rfl, rfl⟩

/-- C5 counterexample: the declared type of the `text` parameter of `echo`
is `string`, the provided argument is the number `5` (not a numeric-string
coercion case), and no TypeMismatchError is raised: the selection goes to
the remote call unchanged. -/
theorem type_mismatch_is_forwarded :
    declaredParamType serverTools "echo" "text" = some "string"
    ∧ (jsonTypeName (Json.num 5 0) == "string") = false
    ∧ invokeToolFlow ("\x7b\"name\": \"echo\", \"arguments\": \x7b\"text\": 5\x7d\x7d".toList)
        = Except.ok ⟨Json.str "echo", Json.obj [("text", Json.num 5 0)]⟩
    ∧ makesRemoteCall
        (invokeToolFlow ("\x7b\"name\": \"echo\", \"arguments\": \x7b\"text\": 5\x7d\x7d".toList))
        = true :=
  ⟨rfl, rfl, rfl, rfl⟩

/-- C6 counterexample: on a payload whose text items are `a` then `b`, the
test3 normalization prints only the first text item (prefixed `Result: `),
not exactly the contents of all the text items. -/
theorem normalizer_drops_later_text_items :
    result_lines_test3 ⟨[ContentBlock.text "a", ContentBlock.text "b"], none⟩ = ["Result: a"]
    ∧ ((result_lines_test3 ⟨[ContentBlock.text "a", ContentBlock.text "b"], none⟩)
        == ["a", "b"]) = false :=
  ⟨rfl, rfl⟩

/-- C9 counterexample: a non-empty payload with one non-text block: the
test-mcp flow prints no result line at all and raises nothing, so the
payload is dropped silently instead of failing with an
UnrepresentableResultError (which exists nowhere in the code). -/
theorem testmcp_normalizer_silently_empty :
    (CallToolResult.mk [ContentBlock.other "image" Json.null] none).rcontent.length = 1
    ∧ result_lines_testmcp ⟨[ContentBlock.other "image" Json.null], none⟩ = [] :=
  ⟨rfl, rfl⟩

/-- C7 counterexample: for the parameterless catalog tool `current_time`,
the test-mcp prompt generator emits no `Arguments: None` marker anywhere
(it lists only names and descriptions), while the test2 generator does. -/
theorem testmcp_prompt_lacks_arguments_marker :
    currentTimeTool.properties = []
    ∧ containsStr ("  Arguments: None".toList)
        ((create_tool_prompt_testmcp [currentTimeTool]).toList) = false
    ∧ occ "  Arguments: None" (prompt_lines [currentTimeTool]) = 1 :=
  ⟨rfl, by decide, rfl⟩

/-- C2 as the code has it: the dispatcher performs no required-parameter
check at all — any arguments object for `add_numbers` is forwarded to the
remote call unchanged — and the missing-argument rejection happens only on
the server, where `handle_call_tool` raises one fixed ValueError naming both
parameters whenever `a` or `b` is absent or null. -/
theorem no_client_side_required_check
    (args : List (String × Json)) (now : String)
    (hne : args.isEmpty = false)
    (hmiss : (pyIsNone (dictGetD args "a" Json.null)
        || pyIsNone (dictGetD args "b" Json.null)) = true) :
    dispatchChoice (Json.obj [("name", Json.str "add_numbers"), ("arguments", Json.obj args)])
      = Except.ok ⟨Json.str "add_numbers", Json.obj args⟩
    ∧ handle_call_tool now "add_numbers" (some args)
      = Except.error "Both \x27a\x27 and \x27b\x27 parameters are required" := by
  refine ⟨rfl, ?_⟩
  simp [handle_call_tool, hne, hmiss]

/-- Witness for C2: the selection carrying only `a` is forwarded by the
client, and the server raises the fixed both-parameters message. -/
theorem no_client_side_required_check_witness :
    dispatchChoice (Json.obj [("name", Json.str "add_numbers"),
        ("arguments", Json.obj [("a", Json.num 7 0)])])
      = Except.ok ⟨Json.str "add_numbers", Json.obj [("a", Json.num 7 0)]⟩
    ∧ handle_call_tool "12:00" "add_numbers" (some [("a", Json.num 7 0)])
      = Except.error "Both \x27a\x27 and \x27b\x27 parameters are required" :=
  no_client_side_required_check [("a", Json.num 7 0)] "12:00" rfl rfl

/-- C3 as the code has it: the dispatcher forwards any selection name to the
remote call without consulting the catalog (the name may even be a
non-string); the unknown-name rejection happens only on the server, whose
`handle_call_tool` raises `Unknown tool: NAME` for every name other than its
three tools. -/
theorem no_client_side_catalog_check
    (nm argsJ : Json) (now toolName : String) (args : Option (List (String × Json)))
    (h1 : toolName ≠ "echo") (h2 : toolName ≠ "current_time") (h3 : toolName ≠ "add_numbers") :
    dispatchChoice (Json.obj [("name", nm), ("arguments", argsJ)]) = Except.ok ⟨nm, argsJ⟩
    ∧ handle_call_tool now toolName args = Except.error ("Unknown tool: " ++ toolName) := by
  refine ⟨rfl, ?_⟩
  simp [handle_call_tool, h1, h2, h3]

/-- Witness for C3 at the selection of the scenario the claim gives. -/
theorem no_client_side_catalog_check_witness :
    dispatchChoice (Json.obj [("name", Json.str "subtract_numbers"),
        ("arguments", Json.obj [("a", Json.num 1 0), ("b", Json.num 2 0)])])
      = Except.ok ⟨Json.str "subtract_numbers",
          Json.obj [("a", Json.num 1 0), ("b", Json.num 2 0)]⟩
    ∧ handle_call_tool "12:00" "subtract_numbers"
        (some [("a", Json.num 1 0), ("b", Json.num 2 0)])
      = Except.error ("Unknown tool: " ++ "subtract_numbers") :=
  no_client_side_catalog_check (Json.str "subtract_numbers")
    (Json.obj [("a", Json.num 1 0), ("b", Json.num 2 0)]) "12:00" "subtract_numbers"
    (some [("a", Json.num 1 0), ("b", Json.num 2 0)])
    (by decide) (by decide) (by decide)

/-- C5 as the code has it: there is no type validation anywhere on the
client side — for the `echo` tool, whose `text` parameter is declared
`string`, a selection carrying ANY runtime value for `text` passes the guard
and is forwarded to the remote call unchanged; no TypeMismatchError and no
coercion rule exist. -/
theorem no_client_side_type_check (v : Json) :
    declaredParamType serverTools "echo" "text" = some "string"
    ∧ dispatchChoice (Json.obj [("name", Json.str "echo"),
        ("arguments", Json.obj [("text", v)])])
      = Except.ok ⟨Json.str "echo", Json.obj [("text", v)]⟩ :=
  ⟨rfl, rfl⟩

/-- C6 as the code has it: when the payload has text items, the test2 and
test-mcp flows print one bulleted line per text item, all of them in payload
order, while the test3 flows print only the first text item; the structured
content is ignored by all of them in that case. -/
theorem text_items_selection (blocks : List ContentBlock) (sc : Option Json)
    (t : String) (rest : List String)
    (h : textBlocks blocks = t :: rest) :
    result_lines_test2 ⟨blocks, sc⟩ = (t :: rest).map (fun x => "- " ++ x)
    ∧ result_lines_testmcp ⟨blocks, sc⟩ = (t :: rest).map (fun x => "- " ++ x)
    ∧ result_lines_test3 ⟨blocks, sc⟩ = ["Result: " ++ t] := by
  refine ⟨?_, ?_, ?_⟩
  · simp [result_lines_test2, h]
  · simp [result_lines_testmcp, h]
  · simp [result_lines_test3, h]

/-- Witness for C6 on a payload with two text items and a structured item:
test2 and test-mcp keep both texts in order, test3 keeps only the first, the
structured pieces are ignored. -/
theorem text_items_selection_witness :
    result_lines_test2 ⟨[ContentBlock.text "a", ContentBlock.other "json" (Json.num 1 0),
        ContentBlock.text "b"], some (Json.obj [("x", Json.num 1 0)])⟩
      = ["- a", "- b"]
    ∧ result_lines_testmcp ⟨[ContentBlock.text "a", ContentBlock.other "json" (Json.num 1 0),
        ContentBlock.text "b"], some (Json.obj [("x", Json.num 1 0)])⟩
      = ["- a", "- b"]
    ∧ result_lines_test3 ⟨[ContentBlock.text "a", ContentBlock.other "json" (Json.num 1 0),
        ContentBlock.text "b"], some (Json.obj [("x", Json.num 1 0)])⟩
      = ["Result: a"] :=
  text_items_selection _ _ "a" ["b"] rfl

/-- C9 as the code has it: the test3 and test2 normalizations can never
produce an empty output (their raw-dump fallbacks are unconditional), but
the test-mcp flow has no fallback and prints nothing for a payload without
text items; no UnrepresentableResultError exists anywhere. -/
theorem fallback_always_nonempty (r : CallToolResult) :
    (result_lines_test3 r).isEmpty = false
    ∧ (result_lines_test2 r).isEmpty = false := by
  constructor
  · unfold result_lines_test3
    cases htb : textBlocks r.rcontent with
    | cons t ts => simp
    | nil => cases r.structuredContent <;> simp
  · unfold result_lines_test2
    cases htb : textBlocks r.rcontent <;> simp [htb]

/-- C4 as the code has it: the flow raises before the remote call exactly
when the strict parse and the greedy-span parse both fail (no candidate
value), or when the candidate value is not an object carrying both `name`
and `arguments`; in every such case no remote call is made. The presence of
a well-formed object somewhere in the text is neither necessary nor
sufficient. -/
theorem extraction_failure_characterization (text : List Char) :
    makesRemoteCall (invokeToolFlow text) = false
      ↔ candidateJson text = none
        ∨ ∃ v, candidateJson text = some v ∧ isValidChoice v = false := by
  unfold invokeToolFlow extract_json_object candidateJson dispatchChoice
  cases hp : parseJson text with
  | some v =>
    cases hv : isValidChoice v with
    | true => simp [makesRemoteCall, hp, hv]
    | false => simp [makesRemoteCall, hp, hv]
  | none =>
    cases hb : braceMatch text with
    | none => simp [makesRemoteCall, hp, hb]
    | some sub =>
      cases hps : parseJson sub with
      | none => simp [makesRemoteCall, hp, hb, hps]
      | some v =>
        cases hv : isValidChoice v with
        | true => simp [makesRemoteCall, hp, hb, hps, hv]
        | false => simp [makesRemoteCall, hp, hb, hps, hv]

/-- Dropping from an append whose whole first part satisfies the predicate
continues into the second part. -/
theorem dropWhile_append_of_all {p : Char → Bool} {l1 l2 : List Char}
    (h : ∀ a ∈ l1, p a = true) :
    (l1 ++ l2).dropWhile p = l2.dropWhile p := by
  induction l1 with
  | nil => rfl
  | cons c cs ih =>
    have hc : p c = true := h c (List.mem_cons_self c cs)
    rw [List.cons_append, List.dropWhile_cons, if_pos hc]
    exact ih (fun a ha => h a (List.mem_cons_of_mem _ ha))

/-- Dropping characters different from `c` stops at once on a head `c`. -/
theorem dropWhile_cons_self_ne (c : Char) (l : List Char) :
    (c :: l).dropWhile (fun a => a != c) = c :: l := by
  rw [List.dropWhile_cons, if_neg (by simp)]

/-- C1 as the code has it: the recovery step parses the span from the first
open brace to the last close brace of the text (a greedy regex, not a
first-balanced-object scan). Consequently, when the whole text does not
parse strictly, an embedded object delimited by braces is recovered
unchanged provided the prose before it contains no open brace and the prose
after it contains no close brace; the counterexample shows recovery fail
when the trailing prose does contain one. -/
theorem extractor_roundtrip (p mid s : List Char) (o : Json)
    (hp : p.all (fun c => c != lbrace) = true)
    (hs : s.all (fun c => c != rbrace) = true)
    (hwhole : parseJson (p ++ (lbrace :: (mid ++ [rbrace])) ++ s) = none)
    (hobj : parseJson (lbrace :: (mid ++ [rbrace])) = some o) :
    extract_json_object (p ++ (lbrace :: (mid ++ [rbrace])) ++ s) = Except.ok o := by
  have hp2 : ∀ a ∈ p, (a != lbrace) = true := List.all_eq_true.mp hp
  have hs2 : ∀ a ∈ s.reverse, (a != rbrace) = true := by
    intro a ha
    exact List.all_eq_true.mp hs a (List.mem_reverse.mp ha)
  have h1 : (p ++ (lbrace :: (mid ++ [rbrace])) ++ s).dropWhile (fun c => c != lbrace)
      = lbrace :: ((mid ++ [rbrace]) ++ s) := by
    rw [List.append_assoc, dropWhile_append_of_all hp2, List.cons_append, List.dropWhile_cons]
    simp [List.append_assoc]
  have h2 : ((mid ++ [rbrace]) ++ s).reverse.dropWhile (fun c => c != rbrace)
      = rbrace :: mid.reverse := by
    rw [List.reverse_append, List.reverse_append, dropWhile_append_of_all hs2]
    simp only [List.reverse_cons, List.reverse_nil, List.nil_append, List.singleton_append]
    rw [List.dropWhile_cons]
    simp
  have hbm : braceMatch (p ++ (lbrace :: (mid ++ [rbrace])) ++ s)
      = some (lbrace :: (mid ++ [rbrace])) := by
    unfold braceMatch
    rw [h1]
    simp only [h2, List.reverse_cons, List.reverse_reverse]
  unfold extract_json_object
  simp only [hwhole, hbm, hobj]

/-- Taking from an append whose whole first part satisfies the predicate
continues into the second part. -/
theorem takeWhile_append_of_all {p : Char → Bool} {l1 l2 : List Char}
    (h : ∀ a ∈ l1, p a = true) :
    (l1 ++ l2).takeWhile p = l1 ++ l2.takeWhile p := by
  induction l1 with
  | nil => simp
  | cons c cs ih =>
    rw [List.cons_append, List.takeWhile_cons, if_pos (h c (List.mem_cons_self c cs)),
      ih (fun a ha => h a (List.mem_cons_of_mem _ ha)), List.cons_append]

/-- String equality lifts from the underlying character data. -/
theorem string_eq_of_data {a b : String} (h : a.data = b.data) : a = b := by
  cases a; cases b; exact congrArg String.mk h

/-- The first four characters of a line; the line kinds of the test2 prompt
generator carry distinct four-character leads. -/
def tag4 (s : String) : List Char := s.data.take 4

/-- Lines with different four-character tags differ. -/
theorem ne_of_tag4 {a b : String} (h : tag4 a ≠ tag4 b) : a ≠ b :=
  fun e => h (by rw [e])

/-- Tag of a tool-header line. -/
theorem tag4_toolHeader (nm : String) : tag4 (toolHeader nm) = ['\n', '-', ' ', 'T'] := by
  unfold toolHeader tag4
  simp only [String.data_append, List.append_assoc]
  rw [List.take_append_of_le_length (by decide)]
  rfl

/-- Tag of a parameter line. -/
theorem tag4_paramLine (n ty st : String) : tag4 (paramLine n ty st) = [' ', ' ', ' ', ' '] := by
  unfold paramLine tag4
  simp only [String.data_append, List.append_assoc]
  rw [List.take_append_of_le_length (by decide)]
  rfl

/-- Tag of a description line. -/
theorem tag4_descLine (s : String) : tag4 ("  Description: " ++ s) = [' ', ' ', 'D', 'e'] := by
  unfold tag4
  simp only [String.data_append]
  rw [List.take_append_of_le_length (by decide)]
  rfl

/-- The name rendered in a parameter line is recovered by dropping the
seven-character lead and reading up to the first backtick. -/
theorem paramLine_name_data (n ty st : String) (hn : noBacktick n = true) :
    ((paramLine n ty st).data.drop 7).takeWhile (fun c => c != btick) = n.data := by
  have hstop : ∀ X : List Char, ("` (type: ".data ++ X).takeWhile (fun c => c != btick) = [] := by
    intro X
    rw [show "` (type: ".data = btick :: " (type: ".data from rfl, List.cons_append,
      List.takeWhile_cons]
    simp
  have hall : ∀ a ∈ n.data, (a != btick) = true := by
    intro a ha
    exact List.all_eq_true.mp hn a ha
  unfold paramLine
  simp only [String.data_append, List.append_assoc]
  rw [show (7 : Nat) = ("    - `".data).length from rfl, List.drop_left,
    takeWhile_append_of_all hall, hstop, List.append_nil]

/-- Two parameter lines with backtick-free names agree on the name when they
are equal. -/
theorem paramLine_inj_name {n ty st n2 ty2 st2 : String}
    (hn : noBacktick n = true) (hn2 : noBacktick n2 = true)
    (h : paramLine n ty st = paramLine n2 ty2 st2) : n = n2 := by
  apply string_eq_of_data
  rw [← paramLine_name_data n ty st hn, ← paramLine_name_data n2 ty2 st2 hn2, h]

/-- Two parameter lines equal in name and type agree on the status when they
are equal. -/
theorem paramLine_inj_status {n ty st st2 : String}
    (h : paramLine n ty st = paramLine n ty st2) : st = st2 := by
  have hd := congrArg String.data h
  unfold paramLine at hd
  simp only [String.data_append, List.append_assoc] at hd
  have h1 := List.append_cancel_left hd
  have h2 := List.append_cancel_left h1
  have h3 := List.append_cancel_left h2
  have h4 := List.append_cancel_left h3
  have h5 := List.append_cancel_left h4
  exact string_eq_of_data (List.append_cancel_right h5)

/-- Tool headers are injective in the tool name. -/
theorem toolHeader_inj {a b : String} (h : toolHeader a = toolHeader b) : a = b := by
  have hd := congrArg String.data h
  unfold toolHeader at hd
  simp only [String.data_append, List.append_assoc] at hd
  exact string_eq_of_data (List.append_cancel_right (List.append_cancel_left hd))

/-- Occurrence count of a line in the empty list. -/
theorem occ_nil (x : String) : occ x [] = 0 := rfl

/-- Occurrence count across a cons. -/
theorem occ_cons (x y : String) (l : List String) :
    occ x (y :: l) = (if y = x then 1 else 0) + occ x l := by
  unfold occ
  rw [List.filter_cons]
  by_cases h : y = x
  · simp [h, Nat.add_comm]
  · simp [h]

/-- Occurrence count across an append. -/
theorem occ_append (x : String) (l1 l2 : List String) :
    occ x (l1 ++ l2) = occ x l1 + occ x l2 := by
  unfold occ
  rw [List.filter_append, List.length_append]

/-- A line different from every element occurs zero times. -/
theorem occ_eq_zero (x : String) (l : List String) (h : ∀ y ∈ l, y ≠ x) : occ x l = 0 := by
  induction l with
  | nil => rfl
  | cons y ys ih =>
    rw [occ_cons, if_neg (h y (List.mem_cons_self y ys))]
    simpa using ih (fun z hz => h z (List.mem_cons_of_mem _ hz))

/-- Every description line starts with the description lead. -/
theorem mem_descLines {l : String} {d : Option String} (h : l ∈ descLines d) :
    ∃ s, l = "  Description: " ++ s := by
  cases d with
  | none => cases h
  | some s =>
    simp only [descLines] at h
    split at h
    · cases h
    · exact ⟨cleanDescription s, by simpa using h⟩

/-- Every argument line is the marker, the header, or a parameter line. -/
theorem mem_argLines {l : String} {props : List (String × PropSchema)} {req : List String}
    (h : l ∈ argLines props req) :
    l = "  Arguments: None" ∨ l = "  Arguments:" ∨ ∃ n ty st, l = paramLine n ty st := by
  unfold argLines at h
  split at h
  · left; simpa using h
  · rcases List.mem_cons.mp h with h1 | h2
    · right; left; exact h1
    · right; right
      obtain ⟨pr, _, hl⟩ := List.mem_map.mp h2
      exact ⟨pr.1, argTypeStr pr.2, statusOf req pr.1, hl.symm⟩

/-- A tool section contains the header of a given name exactly when it is
the section of that name, and then once. -/
theorem occ_header_toolSection (t : ToolDef) (nm : String) :
    occ (toolHeader nm) (toolSection t) = if t.name = nm then 1 else 0 := by
  unfold toolSection
  rw [occ_cons, occ_append]
  have hd : occ (toolHeader nm) (descLines t.description) = 0 := by
    apply occ_eq_zero
    intro y hy
    obtain ⟨s, rfl⟩ := mem_descLines hy
    apply ne_of_tag4
    rw [tag4_descLine, tag4_toolHeader]
    decide
  have ha : occ (toolHeader nm) (argLines t.properties t.required) = 0 := by
    apply occ_eq_zero
    intro y hy
    rcases mem_argLines hy with rfl | rfl | ⟨n, ty, st, rfl⟩
    · apply ne_of_tag4; rw [tag4_toolHeader]; decide
    · apply ne_of_tag4; rw [tag4_toolHeader]; decide
    · apply ne_of_tag4; rw [tag4_paramLine, tag4_toolHeader]; decide
  rw [hd, ha]
  by_cases h : t.name = nm
  · rw [if_pos (by rw [h]), if_pos h]
  · rw [if_neg (fun e => h (toolHeader_inj e)), if_neg h]

/-- Across the concatenated sections, a header occurs as often as its name
occurs in the catalog. -/
theorem occ_header_sections (tools : List ToolDef) (nm : String) :
    occ (toolHeader nm) ((tools.map toolSection).flatten)
      = (tools.map ToolDef.name).count nm := by
  induction tools with
  | nil => rfl
  | cons t ts ih =>
    rw [List.map_cons, List.flatten_cons, occ_append, ih, occ_header_toolSection,
      List.map_cons, List.count_cons]
    by_cases h : t.name = nm
    · simp [h]
      omega
    · simp [h]

/-- In the whole test2 prompt, the header of a catalog tool occurs exactly
once (tool names unique). -/
theorem occ_header_prompt (tools : List ToolDef) (t : ToolDef)
    (hmem : t ∈ tools) (hnodup : (tools.map ToolDef.name).Nodup) :
    occ (toolHeader t.name) (prompt_lines tools) = 1 := by
  unfold prompt_lines
  rw [occ_cons, occ_cons, occ_header_sections,
    if_neg (by apply ne_of_tag4; rw [tag4_toolHeader]; decide),
    if_neg (by apply ne_of_tag4; rw [tag4_toolHeader]; decide)]
  have := List.count_eq_one_of_mem hnodup (List.mem_map_of_mem ToolDef.name hmem)
  simpa using this

/-- A parameter line whose backtick-free name is not among the rendered
parameters occurs zero times in their rendering. -/
theorem occ_param_map_zero (rest : List (String × PropSchema)) (req : List String)
    (n ty st : String) (hn : noBacktick n = true)
    (hnot : n ∉ rest.map Prod.fst)
    (hbt : ∀ m ∈ rest.map Prod.fst, noBacktick m = true) :
    occ (paramLine n ty st)
      (rest.map (fun pr => paramLine pr.1 (argTypeStr pr.2) (statusOf req pr.1))) = 0 := by
  apply occ_eq_zero
  intro y hy
  obtain ⟨pr, hpr, rfl⟩ := List.mem_map.mp hy
  intro he
  have hname := paramLine_inj_name (hbt pr.1 (List.mem_map_of_mem Prod.fst hpr)) hn he
  exact hnot (hname ▸ List.mem_map_of_mem Prod.fst hpr)

/-- In the rendered parameter lines of one tool, the line of a declared
parameter occurs once with the status the code computes for it and zero
times with any other status (names unique and backtick-free). -/
theorem occ_param_map (props : List (String × PropSchema)) (req : List String)
    (n : String) (sch : PropSchema) (st : String)
    (hmem : (n, sch) ∈ props)
    (hnodup : (props.map Prod.fst).Nodup)
    (hbt : ∀ m ∈ props.map Prod.fst, noBacktick m = true) :
    occ (paramLine n (argTypeStr sch) st)
        (props.map (fun pr => paramLine pr.1 (argTypeStr pr.2) (statusOf req pr.1)))
      = if st = statusOf req n then 1 else 0 := by
  induction props with
  | nil => cases hmem
  | cons pr rest ih =>
    rw [List.map_cons] at hnodup
    have hnodup2 := List.nodup_cons.mp hnodup
    rw [List.map_cons, occ_cons]
    rcases List.mem_cons.mp hmem with heq | hmm2
    · subst heq
      have hn : noBacktick n = true := hbt n (by simp)
      have hz := occ_param_map_zero rest req n (argTypeStr sch) st hn hnodup2.1
        (fun m hm => hbt m (List.mem_cons_of_mem _ hm))
      rw [hz]
      by_cases hst : st = statusOf req n
      · rw [if_pos (by rw [hst]), if_pos hst]
      · rw [if_neg (fun e => hst (paramLine_inj_status e).symm), if_neg hst]
    · have hn_in : n ∈ rest.map Prod.fst := by
        have := List.mem_map_of_mem Prod.fst hmm2
        simpa using this
      have hne : pr.1 ≠ n := fun e => hnodup2.1 (e ▸ hn_in)
      have hbt_n : noBacktick n = true := hbt n (List.mem_cons_of_mem _ hn_in)
      have hbt_h : noBacktick pr.1 = true := hbt pr.1 (by simp)
      rw [if_neg (fun e => hne (paramLine_inj_name hbt_h hbt_n e))]
      have := ih hmm2 hnodup2.2 (fun m hm => hbt m (List.mem_cons_of_mem _ hm))
      simpa using this

/-- In the argument lines of one tool with declared parameters, a declared
parameter occurs once with the computed status, zero times otherwise. -/
theorem occ_param_argLines (props : List (String × PropSchema)) (req : List String)
    (n : String) (sch : PropSchema) (st : String)
    (hmem : (n, sch) ∈ props)
    (hnodup : (props.map Prod.fst).Nodup)
    (hbt : ∀ m ∈ props.map Prod.fst, noBacktick m = true) :
    occ (paramLine n (argTypeStr sch) st) (argLines props req)
      = if st = statusOf req n then 1 else 0 := by
  unfold argLines
  cases props with
  | nil => cases hmem
  | cons a l =>
    rw [if_neg (by simp)]
    rw [occ_cons, if_neg (by apply ne_of_tag4; rw [tag4_paramLine]; decide)]
    have := occ_param_map (a :: l) req n sch st hmem hnodup hbt
    simpa using this

/-- In the whole section of a tool, a declared parameter line occurs once
with the computed status, zero times with any other status. -/
theorem occ_param_toolSection (t : ToolDef) (n : String) (sch : PropSchema) (st : String)
    (hmem : (n, sch) ∈ t.properties)
    (hnodup : (t.properties.map Prod.fst).Nodup)
    (hbt : ∀ m ∈ t.properties.map Prod.fst, noBacktick m = true) :
    occ (paramLine n (argTypeStr sch) st) (toolSection t)
      = if st = statusOf t.required n then 1 else 0 := by
  unfold toolSection
  rw [occ_cons, occ_append,
    if_neg (by apply ne_of_tag4; rw [tag4_toolHeader, tag4_paramLine]; decide)]
  have hd : occ (paramLine n (argTypeStr sch) st) (descLines t.description) = 0 := by
    apply occ_eq_zero
    intro y hy
    obtain ⟨s, rfl⟩ := mem_descLines hy
    apply ne_of_tag4
    rw [tag4_descLine, tag4_paramLine]
    decide
  rw [hd, occ_param_argLines t.properties t.required n sch st hmem hnodup hbt]
  omega

/-- A tool without properties gets the `Arguments: None` marker exactly
once in its section. -/
theorem occ_argsNone_section_empty (t : ToolDef) (h : t.properties = []) :
    occ "  Arguments: None" (toolSection t) = 1 := by
  unfold toolSection argLines
  rw [h]
  rw [occ_cons, occ_append,
    if_neg (by apply ne_of_tag4; rw [tag4_toolHeader]; decide)]
  have hd : occ "  Arguments: None" (descLines t.description) = 0 := by
    apply occ_eq_zero
    intro y hy
    obtain ⟨s, rfl⟩ := mem_descLines hy
    apply ne_of_tag4
    rw [tag4_descLine]
    decide
  rw [hd]
  simp [occ_cons, occ_nil]

/-- A tool with properties never gets the `Arguments: None` marker in its
section. -/
theorem occ_argsNone_section_nonempty (t : ToolDef) (h : t.properties ≠ []) :
    occ "  Arguments: None" (toolSection t) = 0 := by
  unfold toolSection
  rw [occ_cons, occ_append,
    if_neg (by apply ne_of_tag4; rw [tag4_toolHeader]; decide)]
  have hd : occ "  Arguments: None" (descLines t.description) = 0 := by
    apply occ_eq_zero
    intro y hy
    obtain ⟨s, rfl⟩ := mem_descLines hy
    apply ne_of_tag4
    rw [tag4_descLine]
    decide
  have ha : occ "  Arguments: None" (argLines t.properties t.required) = 0 := by
    unfold argLines
    cases hp : t.properties with
    | nil => exact absurd hp h
    | cons a l =>
      rw [if_neg (by simp)]
      rw [occ_cons, if_neg (by decide)]
      have : occ "  Arguments: None"
          ((a :: l).map (fun pr => paramLine pr.1 (argTypeStr pr.2) (statusOf t.required pr.1)))
          = 0 := by
        apply occ_eq_zero
        intro y hy
        obtain ⟨pr, _, rfl⟩ := List.mem_map.mp hy
        apply ne_of_tag4
        rw [tag4_paramLine]
        decide
      simpa using this
  rw [hd, ha]

/-- C7 as the code has it: for catalogs with unique tool names and unique,
backtick-free parameter names, the test2 prompt generator lists every tool
exactly once, every declared parameter of a tool exactly once in the section of
that tool, with the status `required` exactly when the name is in the
required list of the tool (and never with the opposite status), and marks exactly the
tools without properties with `Arguments: None`. The test-mcp variant lists
only names and descriptions (its deficiency is the counterexample). -/
theorem prompt_fragment_lists_tools_and_params_once
    (tools : List ToolDef) (t tn : ToolDef) (n : String) (sch : PropSchema)
    (hmem : t ∈ tools) (hmemn : tn ∈ tools)
    (hnodup : (tools.map ToolDef.name).Nodup)
    (hpmem : (n, sch) ∈ t.properties)
    (hpnodup : (t.properties.map Prod.fst).Nodup)
    (hbt : ∀ m ∈ t.properties.map Prod.fst, noBacktick m = true)
    (hnone : tn.properties = []) :
    occ (toolHeader t.name) (prompt_lines tools) = 1
    ∧ occ (toolHeader tn.name) (prompt_lines tools) = 1
    ∧ occ (paramLine n (argTypeStr sch) "required") (toolSection t)
        = (if t.required.contains n then 1 else 0)
    ∧ occ (paramLine n (argTypeStr sch) "optional") (toolSection t)
        = (if t.required.contains n then 0 else 1)
    ∧ occ "  Arguments: None" (toolSection tn) = 1
    ∧ occ "  Arguments: None" (toolSection t) = 0 := by
  refine ⟨occ_header_prompt tools t hmem hnodup, occ_header_prompt tools tn hmemn hnodup,
    ?_, ?_, occ_argsNone_section_empty tn hnone, ?_⟩
  · rw [occ_param_toolSection t n sch "required" hpmem hpnodup hbt]
    by_cases hc : n ∈ t.required <;> simp [statusOf, hc]
  · rw [occ_param_toolSection t n sch "optional" hpmem hpnodup hbt]
    by_cases hc : n ∈ t.required <;> simp [statusOf, hc]
  · apply occ_argsNone_section_nonempty
    intro he
    rw [he] at hpmem
    cases hpmem

/-- Witness for C7 on the server catalog: `add_numbers` (parameter `a`
required) and `current_time` (no parameters). -/
theorem prompt_fragment_witness :
    occ (toolHeader addNumbersTool.name) (prompt_lines serverTools) = 1
    ∧ occ (toolHeader currentTimeTool.name) (prompt_lines serverTools) = 1
    ∧ occ (paramLine "a" (argTypeStr ⟨some "number", none⟩) "required")
        (toolSection addNumbersTool)
        = (if addNumbersTool.required.contains "a" then 1 else 0)
    ∧ occ (paramLine "a" (argTypeStr ⟨some "number", none⟩) "optional")
        (toolSection addNumbersTool)
        = (if addNumbersTool.required.contains "a" then 0 else 1)
    ∧ occ "  Arguments: None" (toolSection currentTimeTool) = 1
    ∧ occ "  Arguments: None" (toolSection addNumbersTool) = 0 :=
  prompt_fragment_lists_tools_and_params_once serverTools addNumbersTool currentTimeTool
    "a" ⟨some "number", none⟩
    (show addNumbersTool ∈ [echoTool, currentTimeTool, addNumbersTool] by simp)
    (show currentTimeTool ∈ [echoTool, currentTimeTool, addNumbersTool] by simp)
    (by decide)
    (show ("a", (⟨some "number", none⟩ : PropSchema))
        ∈ [("a", (⟨some "number", none⟩ : PropSchema)), ("b", ⟨some "number", none⟩)] by simp)
    (by decide) (by decide) rfl

/-- Witness for C1: prose before and after a concrete selection object, the
leading prose free of open braces and the trailing prose free of close
braces; the extractor returns exactly the embedded object. -/
theorem extractor_roundtrip_witness :
    extract_json_object ("Sure! ".toList
        ++ (lbrace :: ("\"name\": \"add_numbers\", \"arguments\": \x7b\"a\": 7, \"b\": 5\x7d".toList
            ++ [rbrace]))
        ++ " Done.".toList)
      = Except.ok (Json.obj [("name", Json.str "add_numbers"),
          ("arguments", Json.obj [("a", Json.num 7 0), ("b", Json.num 5 0)])]) :=
  extractor_roundtrip "Sure! ".toList
    "\"name\": \"add_numbers\", \"arguments\": \x7b\"a\": 7, \"b\": 5\x7d".toList
    " Done.".toList
    (Json.obj [("name", Json.str "add_numbers"),
      ("arguments", Json.obj [("a", Json.num 7 0), ("b", Json.num 5 0)])])
    rfl rfl rfl rfl
